import Mathlib

/-!
# Verification of the `ckanext-tables` tabular data-access core

A shallow embedding, in Lean 4, of the data-source and cache layer of the
`ckanext-tables` extension:

* `ckanext/tables/data_sources.py` — the `DatabaseDataSource`,
  `ListDataSource` and `PandasDataSource` variants of the tabular-source
  interface (`filter` / `sort` / `paginate` / `all` / `count` /
  `get_columns`), together with the `CsvUrlDataSource` fetch wrapper and the
  `serialize_value` row serializer;
* `ckanext/tables/cache.py` — the `RedisCacheBackend` key layout and the
  `PickleCacheBackend` file-based cache (`get` / `set` / `_get_ttl` /
  `_cache_path`).

Python run-time values that flow through these functions are modelled by the
`PyVal` inductive below; raising an exception is modelled by `Option`/`Except`
result types.  Machine floats are modelled as exact scaled decimals: every
float literal handled by the embedded code paths is a short decimal for which
binary rounding is not observable in the statements proved here.
-/

namespace CkanextTables

/-- A Python `float`, modelled as a scaled decimal `m / 10 ^ e` plus the three
non-finite values.  Binary floating-point rounding is not modelled; the
embedded code only ever produces floats from short decimal literals. -/
inductive PFloat where
  | finite (m : Int) (e : Nat)
  | inf
  | ninf
  | nan
  deriving Repr, DecidableEq

/-- The rational value of a finite float (`0` for the non-finite values,
which are never compared through this function alone). -/
def PFloat.toRat : PFloat → Rat
  | .finite m e => (m : Rat) / ((10 : Rat) ^ e)
  | _ => 0

/-- A `datetime.datetime` value, by its components. -/
structure PyDateTime where
  year : Nat
  month : Nat
  day : Nat
  hour : Nat
  minute : Nat
  second : Nat
  micro : Nat
  deriving Repr, DecidableEq

/-- A `decimal.Decimal` value: scaled decimal `m / 10 ^ e`.  Unlike `PFloat`
it is not normalised, so trailing zeros of the source literal are kept. -/
structure PyDecimal where
  m : Int
  e : Nat
  deriving Repr, DecidableEq

/-- A Python run-time value, as far as the embedded code paths can observe
one.  `list` models `list`, `tuple` and `numpy` arrays alike (they take the
same branch of `serialize_value`); `npscalar` models a numpy scalar wrapper
(anything exposing `.item()`); `other` models any remaining object by its
`str()` rendering. -/
inductive PyVal where
  | none
  | bool (b : Bool)
  | int (i : Int)
  | float (f : PFloat)
  | str (s : String)
  | bytes (bs : List (Fin 256))
  | datetime (dt : PyDateTime)
  | decimal (d : PyDecimal)
  | list (xs : List PyVal)
  | dict (kvs : List (String × PyVal))
  | npscalar (v : PyVal)
  | other (s : String)

/-! ## String renderings (`str()` / `repr()`) -/

/-- Left-pad a numeral with zeros to the given width. -/
def padNum (width n : Nat) : String :=
  let s := toString n
  String.mk (List.replicate (width - s.length) (Char.ofNat 48)) ++ s

/-- `datetime.isoformat()`: `YYYY-MM-DDTHH:MM:SS[.ffffff]`, the fraction
present only when the microsecond field is non-zero. -/
def PyDateTime.isoformat (dt : PyDateTime) : String :=
  padNum 4 dt.year ++ "-" ++ padNum 2 dt.month ++ "-" ++ padNum 2 dt.day ++
    "T" ++ padNum 2 dt.hour ++ ":" ++ padNum 2 dt.minute ++ ":" ++ padNum 2 dt.second ++
    (if dt.micro = 0 then "" else "." ++ padNum 6 dt.micro)

/-- `str(datetime)`: the isoformat with a space separator. -/
def PyDateTime.strRendering (dt : PyDateTime) : String :=
  padNum 4 dt.year ++ "-" ++ padNum 2 dt.month ++ "-" ++ padNum 2 dt.day ++
    " " ++ padNum 2 dt.hour ++ ":" ++ padNum 2 dt.minute ++ ":" ++ padNum 2 dt.second ++
    (if dt.micro = 0 then "" else "." ++ padNum 6 dt.micro)

/-- `repr(datetime)`: the constructor form, with trailing zero seconds and
microseconds omitted. -/
def PyDateTime.reprRendering (dt : PyDateTime) : String :=
  "datetime.datetime(" ++ toString dt.year ++ ", " ++ toString dt.month ++ ", " ++
    toString dt.day ++ ", " ++ toString dt.hour ++ ", " ++ toString dt.minute ++
    (if dt.second = 0 ∧ dt.micro = 0 then ""
     else ", " ++ toString dt.second ++ (if dt.micro = 0 then "" else ", " ++ toString dt.micro)) ++
    ")"

/-- Render the scaled decimal `m / 10 ^ e` in plain decimal notation
(`e = 0` gives no decimal point). -/
def scaledDecimalString (m : Int) (e : Nat) : String :=
  let sign := if m < 0 then "-" else ""
  let digits := toString m.natAbs
  let digits := String.mk (List.replicate (e + 1 - digits.length) (Char.ofNat 48)) ++ digits
  if e = 0 then sign ++ digits
  else
    let cs := digits.toList
    sign ++ String.mk (cs.take (cs.length - e)) ++ "." ++ String.mk (cs.drop (cs.length - e))

/-- Strip trailing fractional zeros from a scaled decimal. -/
def normScaled (m : Int) : Nat → Int × Nat
  | 0 => (m, 0)
  | e + 1 => if m % 10 = 0 then normScaled (m / 10) e else (m, e + 1)

/-- `str(float)` for the modelled range: normalised decimal with at least one
fractional digit; `nan`, `inf` and `-inf` for the non-finite values.
(Scientific notation for very large or small magnitudes is outside the
modelled range.) -/
def PFloat.strRendering : PFloat → String
  | .finite m e =>
    let p := normScaled m e
    if p.2 = 0 then scaledDecimalString p.1 0 ++ ".0" else scaledDecimalString p.1 p.2
  | .inf => "inf"
  | .ninf => "-inf"
  | .nan => "nan"

/-- `str(Decimal)` keeps the literal's scale, trailing zeros included. -/
def PyDecimal.strRendering (d : PyDecimal) : String :=
  scaledDecimalString d.m d.e

/-! ## Numeric parsing (`int()` / `float()`) -/

/-- Read a non-empty all-digit run as a natural number. -/
def readDigits : List Char → Option Nat
  | [] => Option.none
  | cs =>
    if cs.all Char.isDigit then
      Option.some (cs.foldl (fun n c => n * 10 + (c.toNat - 48)) 0)
    else Option.none

/-- Strip leading and trailing whitespace. -/
def stripWs (cs : List Char) : List Char :=
  ((cs.dropWhile Char.isWhitespace).reverse.dropWhile Char.isWhitespace).reverse

/-- `str.lower()` (ASCII case folding; the embedded values are ASCII). -/
def pyLower (s : String) : String :=
  String.mk (s.toList.map Char.toLower)

/-- `int(value)` on a string: optional surrounding whitespace, optional sign,
then decimal digits; anything else raises `ValueError` (`Option.none` here).
Underscore digit grouping is not modelled. -/
def pyIntOfString (s : String) : Option Int :=
  match stripWs s.toList with
  | '+' :: rest => (readDigits rest).map Int.ofNat
  | '-' :: rest => (readDigits rest).map (fun n => -(n : Int))
  | cs => (readDigits cs).map Int.ofNat

/-- Split a digit run `intpart[.fracpart]` into mantissa digits and scale. -/
def readDecimalDigits (cs : List Char) : Option (Nat × Nat) :=
  match cs.span (fun c => decide (c ≠ Char.ofNat 46)) with
  | (intPart, []) => (readDigits intPart).map (fun n => (n, 0))
  | (intPart, _dot :: fracPart) =>
    if intPart.all Char.isDigit ∧ fracPart.all Char.isDigit ∧
        (intPart ≠ [] ∨ fracPart ≠ []) then
      Option.some ((intPart ++ fracPart).foldl (fun n c => n * 10 + (c.toNat - 48)) 0,
        fracPart.length)
    else Option.none

/-- Parse the part of a float literal after the sign. -/
def readUnsignedFloat (cs : List Char) : Option PFloat :=
  let lowered := cs.map Char.toLower
  if lowered = "inf".toList ∨ lowered = "infinity".toList then Option.some PFloat.inf
  else if lowered = "nan".toList then Option.some PFloat.nan
  else
    let (mantPart, expPart) := cs.span (fun c => decide (c ≠ Char.ofNat 101) ∧ decide (c ≠ Char.ofNat 69))
    let expVal : Option Int :=
      match expPart with
      | [] => Option.some 0
      | _e :: '+' :: rest => (readDigits rest).map Int.ofNat
      | _e :: '-' :: rest => (readDigits rest).map (fun n => -(n : Int))
      | _e :: rest => (readDigits rest).map Int.ofNat
    match readDecimalDigits mantPart, expVal with
    | Option.some (digits, scale), Option.some ex =>
      let net : Int := ex - (scale : Int)
      if 0 ≤ net then Option.some (PFloat.finite ((digits : Int) * 10 ^ net.toNat) 0)
      else Option.some (PFloat.finite (digits : Int) (-net).toNat)
    | _, _ => Option.none

/-- Negate a float. -/
def PFloat.neg : PFloat → PFloat
  | .finite m e => .finite (-m) e
  | .inf => .ninf
  | .ninf => .inf
  | .nan => .nan

/-- `float(value)` on a string: optional whitespace and sign, then a decimal
literal with optional exponent, or `inf`/`infinity`/`nan` (case-insensitive);
anything else raises `ValueError` (`Option.none` here). -/
def pyFloatOfString (s : String) : Option PFloat :=
  match stripWs s.toList with
  | '+' :: rest => readUnsignedFloat rest
  | '-' :: rest => (readUnsignedFloat rest).map PFloat.neg
  | cs => readUnsignedFloat cs

/-! ## UTF-8 decoding with replacement (`bytes.decode("utf-8", errors="replace")`) -/

/-- Is the byte a UTF-8 continuation byte (`0x80‥0xBF`)? -/
def isCont (b : Fin 256) : Bool :=
  128 ≤ b.val ∧ b.val ≤ 191

/-- The replacement character `U+FFFD`. -/
def replChar : Char := Char.ofNat 0xFFFD

/-- Fuel-indexed UTF-8 decoding loop; an invalid or truncated sequence is
replaced by one `U+FFFD` per maximal subpart.  The fuel is the byte count, so
it never runs out for the wrapper below. -/
def utf8Aux : Nat → List (Fin 256) → List Char
  | 0, _ => []
  | _ + 1, [] => []
  | fuel + 1, b :: rest =>
    let n := b.val
    if n < 0x80 then Char.ofNat n :: utf8Aux fuel rest
    else if n < 0xC2 then replChar :: utf8Aux fuel rest
    else if n < 0xE0 then
      match rest with
      | c1 :: rest2 =>
        if isCont c1 then Char.ofNat ((n - 0xC0) * 64 + (c1.val - 0x80)) :: utf8Aux fuel rest2
        else replChar :: utf8Aux fuel rest
      | [] => [replChar]
    else if n < 0xF0 then
      let lo1 := if n = 0xE0 then 0xA0 else 0x80
      let hi1 := if n = 0xED then 0x9F else 0xBF
      match rest with
      | c1 :: rest2 =>
        if lo1 ≤ c1.val ∧ c1.val ≤ hi1 then
          match rest2 with
          | c2 :: rest3 =>
            if isCont c2 then
              Char.ofNat ((n - 0xE0) * 4096 + (c1.val - 0x80) * 64 + (c2.val - 0x80)) ::
                utf8Aux fuel rest3
            else replChar :: utf8Aux fuel rest2
          | [] => [replChar]
        else replChar :: utf8Aux fuel rest
      | [] => [replChar]
    else if n < 0xF5 then
      let lo1 := if n = 0xF0 then 0x90 else 0x80
      let hi1 := if n = 0xF4 then 0x8F else 0xBF
      match rest with
      | c1 :: rest2 =>
        if lo1 ≤ c1.val ∧ c1.val ≤ hi1 then
          match rest2 with
          | c2 :: rest3 =>
            if isCont c2 then
              match rest3 with
              | c3 :: rest4 =>
                if isCont c3 then
                  Char.ofNat ((n - 0xF0) * 262144 + (c1.val - 0x80) * 4096 +
                      (c2.val - 0x80) * 64 + (c3.val - 0x80)) :: utf8Aux fuel rest4
                else replChar :: utf8Aux fuel rest3
              | [] => [replChar]
            else replChar :: utf8Aux fuel rest2
          | [] => [replChar]
        else replChar :: utf8Aux fuel rest
      | [] => [replChar]
    else replChar :: utf8Aux fuel rest

/-- `bytes.decode("utf-8", errors="replace")`. -/
def utf8DecodeReplace (bs : List (Fin 256)) : String :=
  String.mk (utf8Aux bs.length bs)

/-! ## `str()` and `repr()` over `PyVal` -/

/-- A lowercase hexadecimal digit. -/
def hexDigit (n : Nat) : Char :=
  if n < 10 then Char.ofNat (48 + n) else Char.ofNat (87 + n)

/-- Two-digit lowercase hexadecimal rendering of a byte value. -/
def hexByte (n : Nat) : String :=
  String.mk [hexDigit (n / 16 % 16), hexDigit (n % 16)]

/-- Escape one character for the single-quoted `repr()` of a string. -/
def pyStrEscapeChar (c : Char) : String :=
  if c = Char.ofNat 92 then "\\\\"
  else if c = Char.ofNat 39 then "\\\x27"
  else if c = Char.ofNat 10 then "\\n"
  else if c = Char.ofNat 13 then "\\r"
  else if c = Char.ofNat 9 then "\\t"
  else if c.toNat < 32 ∨ c.toNat = 127 then "\\x" ++ hexByte c.toNat
  else String.singleton c

/-- `repr(str)`, in its single-quoted form. -/
def pyQuoted (s : String) : String :=
  "\x27" ++ String.join (s.toList.map pyStrEscapeChar) ++ "\x27"

/-- One byte of a `bytes` literal rendering. -/
def pyBytesEscape (b : Fin 256) : String :=
  if b.val = 92 then "\\\\"
  else if b.val = 39 then "\\\x27"
  else if b.val = 10 then "\\n"
  else if b.val = 13 then "\\r"
  else if b.val = 9 then "\\t"
  else if 32 ≤ b.val ∧ b.val < 127 then String.singleton (Char.ofNat b.val)
  else "\\x" ++ hexByte b.val

/-- `repr(bytes)` (single-quoted form). -/
def pyBytesRepr (bs : List (Fin 256)) : String :=
  "b\x27" ++ String.join (bs.map pyBytesEscape) ++ "\x27"

/-- `repr(value)`.  Containers render their elements by `repr`, matching
Python.  An `other` value carries its own textual rendering. -/
def pyRepr : PyVal → String
  | .none => "None"
  | .bool b => if b then "True" else "False"
  | .int i => toString i
  | .float f => f.strRendering
  | .str s => pyQuoted s
  | .bytes bs => pyBytesRepr bs
  | .datetime dt => dt.reprRendering
  | .decimal d => "Decimal(" ++ pyQuoted d.strRendering ++ ")"
  | .list xs => "[" ++ String.intercalate ", " (xs.attach.map fun x => pyRepr x.val) ++ "]"
  | .dict kvs =>
    "\x7b" ++ String.intercalate ", "
      (kvs.attach.map fun kv => pyQuoted kv.val.1 ++ ": " ++ pyRepr kv.val.2) ++ "\x7d"
  | .npscalar v => pyRepr v
  | .other s => s
termination_by v => sizeOf v
decreasing_by
  all_goals simp_wf
  all_goals first
    | omega
    | (have hx := List.sizeOf_lt_of_mem x.property; omega)
    | (have h1 := List.sizeOf_lt_of_mem kv.property
       have h2 : sizeOf kv.val.2 < sizeOf kv.val := by
         obtain ⟨k, v⟩ := kv.val
         simp
         try omega
       omega)

/-- `str(value)`, by type: scalars render directly (strings unquoted,
datetimes as space-separated isoformat, decimals as plain digits, numpy
scalars via their extracted item, bytes as their literal form); containers
render via `repr`, matching Python. -/
def pyStr : PyVal → String
  | .none => "None"
  | .bool b => if b then "True" else "False"
  | .int i => toString i
  | .float f => f.strRendering
  | .str s => s
  | .bytes bs => pyBytesRepr bs
  | .datetime dt => dt.strRendering
  | .decimal d => d.strRendering
  | .npscalar v => pyStr v
  | .other s => s
  | v => pyRepr v

/-! ## JSON-safety and the value serializer -/

mutual

/-- A value is JSON-safe when it is `None`, a boolean, a number, a string, or
a list/mapping of JSON-safe values. -/
def jsonSafe : PyVal → Bool
  | .none => true
  | .bool _ => true
  | .int _ => true
  | .float _ => true
  | .str _ => true
  | .list xs => jsonSafeList xs
  | .dict kvs => jsonSafeDict kvs
  | _ => false
termination_by v => sizeOf v

/-- Elementwise JSON-safety of a list. -/
def jsonSafeList : List PyVal → Bool
  | [] => true
  | x :: xs => jsonSafe x && jsonSafeList xs
termination_by xs => sizeOf xs

/-- Valuewise JSON-safety of a mapping. -/
def jsonSafeDict : List (String × PyVal) → Bool
  | [] => true
  | (_, v) :: rest => jsonSafe v && jsonSafeDict rest
termination_by kvs => sizeOf kvs

end

mutual

/-- `PandasDataSource.serialize_value`: recursively convert a value into a
JSON-safe one — binary is UTF-8-decoded with replacement, timestamps become
ISO-8601 strings, decimals become floats, containers recurse, numpy scalars
are unwrapped via `.item()`, and anything else is stringified. -/
def serializeValue : PyVal → PyVal
  | .none => .none
  | .bool b => .bool b
  | .int i => .int i
  | .float f => .float f
  | .str s => .str s
  | .bytes bs => .str (utf8DecodeReplace bs)
  | .datetime dt => .str dt.isoformat
  | .decimal d => .float (PFloat.finite d.m d.e)
  | .list xs => .list (serializeList xs)
  | .dict kvs => .dict (serializeDict kvs)
  | .npscalar v => serializeValue v
  | .other s => .str s
termination_by v => sizeOf v

/-- Elementwise serialization of a list value. -/
def serializeList : List PyVal → List PyVal
  | [] => []
  | x :: xs => serializeValue x :: serializeList xs
termination_by xs => sizeOf xs

/-- Valuewise serialization of a mapping value. -/
def serializeDict : List (String × PyVal) → List (String × PyVal)
  | [] => []
  | (k, v) :: rest => (k, serializeValue v) :: serializeDict rest
termination_by kvs => sizeOf kvs

end

/-! ## Filter items -/

/-- `ckanext.tables.types.FilterItem`: one user-supplied filter triple.  The
request-parsing layer always produces string values. -/
structure FilterItem where
  field : String
  operator : String
  value : String

/-! ## Python comparisons

`==` is total (mismatched types are simply unequal); `<` between values of
unrelated types raises `TypeError`, modelled as `Option.none`. -/

/-- A number extended with infinities and not-a-number, the common domain in
which Python compares `bool`, `int`, `float` and `Decimal` values. -/
inductive ExtNum where
  | fin (q : Rat)
  | inf
  | ninf
  | nan
  deriving DecidableEq

/-- View of a `PFloat` as an extended number. -/
def PFloat.toExtNum : PFloat → ExtNum
  | .finite m e => .fin ((m : Rat) / ((10 : Rat) ^ e))
  | .inf => .inf
  | .ninf => .ninf
  | .nan => .nan

/-- Numeric view of a value, when it belongs to Python's cross-comparable
numeric tower (`bool`, `int`, `float`, `Decimal`, numpy numeric scalars). -/
def toExtNum : PyVal → Option ExtNum
  | .bool b => Option.some (.fin (if b then 1 else 0))
  | .int i => Option.some (.fin (i : Rat))
  | .float f => Option.some f.toExtNum
  | .decimal d => Option.some (.fin ((d.m : Rat) / ((10 : Rat) ^ d.e)))
  | .npscalar v => toExtNum v
  | _ => Option.none

/-- `a < b` on extended numbers; any comparison involving `nan` is `false`. -/
def ExtNum.lt : ExtNum → ExtNum → Bool
  | .nan, _ => false
  | _, .nan => false
  | .ninf, .ninf => false
  | .ninf, _ => true
  | _, .ninf => false
  | .inf, _ => false
  | .fin _, .inf => true
  | .fin a, .fin b => decide (a < b)

/-- `a == b` on extended numbers; `nan` is unequal to everything. -/
def ExtNum.eqb : ExtNum → ExtNum → Bool
  | .nan, _ => false
  | _, .nan => false
  | .inf, .inf => true
  | .ninf, .ninf => true
  | .fin a, .fin b => decide (a = b)
  | _, _ => false

/-- `a <= b` on extended numbers; any comparison involving `nan` is
`false`. -/
def ExtNum.le (x y : ExtNum) : Bool :=
  if x = ExtNum.nan ∨ y = ExtNum.nan then false else ! ExtNum.lt y x

/-- The sort key of a datetime. -/
def PyDateTime.key (dt : PyDateTime) : List Nat :=
  [dt.year, dt.month, dt.day, dt.hour, dt.minute, dt.second, dt.micro]

mutual

/-- Python `==`: total; numbers compare across types, containers compare
recursively, values of unrelated types are unequal.  (`other` values compare
by identity in Python, which two distinct model values never share.) -/
def pyEqVal : PyVal → PyVal → Bool
  | a, b =>
    match toExtNum a, toExtNum b with
    | Option.some x, Option.some y => x.eqb y
    | _, _ =>
      match a, b with
      | .none, .none => true
      | .str s, .str t => s = t
      | .bytes x, .bytes y => x = y
      | .datetime x, .datetime y => x = y
      | .list xs, .list ys => pyEqList xs ys
      | .dict xs, .dict ys => (xs.length == ys.length) && pyEqDict xs ys
      | _, _ => false
termination_by a _ => sizeOf a

/-- Elementwise equality of Python lists. -/
def pyEqList : List PyVal → List PyVal → Bool
  | [], [] => true
  | x :: xs, y :: ys => pyEqVal x y && pyEqList xs ys
  | _, _ => false
termination_by xs _ => sizeOf xs

/-- Every key of the first dict maps to an equal value in the second. -/
def pyEqDict : List (String × PyVal) → List (String × PyVal) → Bool
  | [], _ => true
  | (k, v) :: rest, ys =>
    (match ys.lookup k with
     | Option.some w => pyEqVal v w
     | Option.none => false) && pyEqDict rest ys
termination_by xs _ => sizeOf xs

/-- Python `a < b`: `Option.none` models `TypeError` for unrelated types. -/
def pyLtVal : PyVal → PyVal → Option Bool
  | a, b =>
    match toExtNum a, toExtNum b with
    | Option.some x, Option.some y => Option.some (x.lt y)
    | _, _ =>
      match a, b with
      | .str s, .str t => Option.some (decide (s < t))
      | .bytes x, .bytes y => Option.some (decide (x.map Fin.val < y.map Fin.val))
      | .datetime x, .datetime y => Option.some (decide (x.key < y.key))
      | .list xs, .list ys => pyLtList xs ys
      | _, _ => Option.none
termination_by a _ => sizeOf a

/-- Lexicographic `<` on Python lists: skip equal heads, then compare the
first unequal pair; a tie on the common length compares lengths. -/
def pyLtList : List PyVal → List PyVal → Option Bool
  | [], [] => Option.some false
  | [], _ :: _ => Option.some true
  | _ :: _, [] => Option.some false
  | x :: xs, y :: ys =>
    if pyEqVal x y then pyLtList xs ys else pyLtVal x y
termination_by xs _ => sizeOf xs

end

/-! ## `ListDataSource` -/

/-- One row of a `ListDataSource`: a Python dict as an association list. -/
abbrev LRow := List (String × PyVal)

/-- `row.get(field, "")`. -/
def rowGetDefault (row : LRow) (field : String) : PyVal :=
  match row.lookup field with
  | Option.some v => v
  | Option.none => .str ""

/-- `row.get(field)` (`None` when absent) — the sort key. -/
def rowGetNone (row : LRow) (field : String) : PyVal :=
  match row.lookup field with
  | Option.some v => v
  | Option.none => .none

/-- Case-insensitive substring test: `b.lower() in a.lower()` (ASCII case
folding; the embedded values are ASCII). -/
def strContainsCI (hay needle : String) : Bool :=
  let n := (pyLower needle).toList
  let h := (pyLower hay).toList
  (List.range (h.length + 1)).any fun i => n.isPrefixOf (h.drop i)

/-- The instance state of a `ListDataSource`: the base list and the current
filtered view. -/
structure ListState where
  data : List LRow
  filtered : List LRow

/-- `ListDataSource.__init__`. -/
def mkListSource (data : List LRow) : ListState := ⟨data, data⟩

/-- The operator table of `ListDataSource.build_filter`: plain string
comparisons on `str(cell)` and `str(value)`. -/
def listOpFunc (op : String) : Option (String → String → Bool) :=
  if op = "=" then Option.some fun a b => a = b
  else if op = "!=" then Option.some fun a b => a ≠ b
  else if op = "<" then Option.some fun a b => decide (a < b)
  else if op = "<=" then Option.some fun a b => decide (a ≤ b)
  else if op = ">" then Option.some fun a b => decide (a > b)
  else if op = ">=" then Option.some fun a b => decide (a ≥ b)
  else if op = "like" then Option.some fun a b => strContainsCI a b
  else Option.none

/-- `ListDataSource.build_filter`: a predicate on rows comparing
`str(row.get(field, ""))` with the filter value, or `Option.none` for an
unknown operator. -/
def listBuildFilter (field op value : String) : Option (LRow → Bool) :=
  (listOpFunc op).map fun f => fun row => f (pyStr (rowGetDefault row field)) value

/-- `ListDataSource.filter`: reset to the base data, then conjunctively apply
each item whose operator is known. -/
def listFilter (st : ListState) (items : List FilterItem) : ListState :=
  { st with
    filtered := items.foldl (fun acc it =>
      match listBuildFilter it.field it.operator it.value with
      | Option.some pred => acc.filter pred
      | Option.none => acc) st.data }

/-- Stable insertion for a possibly-raising strict order: the new element
passes the elements strictly below it and lands before the first element not
strictly below it, so earlier elements win ties. -/
def stableInsert (lt : α → α → Option Bool) (x : α) : List α → Option (List α)
  | [] => Option.some [x]
  | y :: ys =>
    match lt y x with
    | Option.some true => (stableInsert lt x ys).map (y :: ·)
    | Option.some false => Option.some (x :: y :: ys)
    | Option.none => Option.none

/-- A stable sort by a possibly-raising strict order, modelling Python's
`sorted`: stable, and raising (`Option.none`) when elements of unrelated
types get compared — which, for `sorted`, happens exactly on mixed inputs. -/
def stableSortM (lt : α → α → Option Bool) : List α → Option (List α)
  | [] => Option.some []
  | x :: xs => (stableSortM lt xs).bind (stableInsert lt x)

/-- `ListDataSource.sort`: no-op for a falsy `sort_by`; otherwise a stable
sort of the current view by `row.get(sort_by)`, descending exactly when
`sort_order` lowercases to `"desc"`. -/
def listSort (st : ListState) (sortBy : Option String) (sortOrder : Option String) :
    Option ListState :=
  match sortBy with
  | Option.none => Option.some st
  | Option.some sb =>
    if sb = "" then Option.some st
    else
      let desc := pyLower (sortOrder.getD "") = "desc"
      let lt : LRow → LRow → Option Bool := fun r1 r2 =>
        if desc then pyLtVal (rowGetNone r2 sb) (rowGetNone r1 sb)
        else pyLtVal (rowGetNone r1 sb) (rowGetNone r2 sb)
      (stableSortM lt st.filtered).map fun l => { st with filtered := l }

/-- Python list slicing `xs[a:b]` with clamping and negative indices counted
from the end. -/
def pySliceList (xs : List α) (a b : Int) : List α :=
  let n : Int := xs.length
  let norm : Int → Nat := fun i => (if i < 0 then max 0 (n + i) else min n i).toNat
  (xs.take (norm b)).drop (norm a)

/-- `ListDataSource.paginate`: a no-op when `page` or `size` is zero,
otherwise the window `filtered[(page-1)*size : (page-1)*size + size]`. -/
def listPaginate (st : ListState) (page size : Int) : ListState :=
  if page ≠ 0 ∧ size ≠ 0 then
    { st with filtered := pySliceList st.filtered ((page - 1) * size) ((page - 1) * size + size) }
  else st

/-- `ListDataSource.all`: the current view itself, unserialized. -/
def listAll (st : ListState) : List LRow := st.filtered

/-- `ListDataSource.count`. -/
def listCount (st : ListState) : Nat := st.filtered.length

/-- `ListDataSource.get_columns`: the keys of the first base row. -/
def listGetColumns (st : ListState) : List String :=
  match st.data with
  | [] => []
  | r :: _ => r.map Prod.fst

/-! ## `PandasDataSource` -/

/-- The dtype of a frame column. -/
inductive PDtype where
  | int64
  | float64
  | boolDt
  | object
  deriving DecidableEq

/-- `pd.api.types.is_numeric_dtype`. -/
def PDtype.isNumeric : PDtype → Bool
  | .int64 => true
  | .float64 => true
  | .boolDt => true
  | .object => false

/-- An in-memory frame: named, typed columns and row-aligned cells (each row
an association list over the column names). -/
structure Frame where
  headers : List (String × PDtype)
  rows : List (List (String × PyVal))

/-- `df.empty`: true when either axis has length zero. -/
def Frame.isEmptyDf (f : Frame) : Bool :=
  f.rows.isEmpty || f.headers.isEmpty

/-- The cell of a row in a named column (`NaN`-free frames built here always
carry the key; a missing key reads as `None`). -/
def cellOf (row : List (String × PyVal)) (field : String) : PyVal :=
  match row.lookup field with
  | Option.some v => v
  | Option.none => .none

/-- The value a filter compares against: the raw string, or the result of a
successful `float(value)` coercion on a numeric column. -/
inductive CoVal where
  | flt (f : PFloat)
  | strv (s : String)

/-- Elementwise `series == val`.  A float coercion compares numerically
(`nan` unequal to everything); a string against a numeric column is simply
unequal (pandas yields an all-`False` mask); on an object column Python `==`
applies. -/
def frameCellEq (cell : PyVal) : CoVal → Bool
  | .flt v =>
    match toExtNum cell with
    | Option.some x => x.eqb v.toExtNum
    | Option.none => false
  | .strv s => pyEqVal cell (.str s)

/-- Elementwise `series < val`; `Option.none` models the `TypeError` pandas
raises when a numeric column meets a string value (or an object cell has no
ordering against it). -/
def frameCellLt (cell : PyVal) : CoVal → Option Bool
  | .flt v => (toExtNum cell).map fun x => x.lt v.toExtNum
  | .strv s => pyLtVal cell (.str s)

/-- Python `a <= b`, the reflexive companion of `pyLtVal`. -/
def pyLeVal (a b : PyVal) : Option Bool :=
  match toExtNum a, toExtNum b with
  | Option.some x, Option.some y => Option.some (x.le y)
  | _, _ =>
    match a, b with
    | .str s, .str t => Option.some (decide (s ≤ t))
    | .bytes x, .bytes y => Option.some (decide (x.map Fin.val ≤ y.map Fin.val))
    | .datetime x, .datetime y => Option.some (decide (x.key ≤ y.key))
    | .list xs, .list ys => (pyLtList ys xs).map (fun b => !b)
    | _, _ => Option.none

/-- Elementwise `series <= val`. -/
def frameCellLe (cell : PyVal) : CoVal → Option Bool
  | .flt v => (toExtNum cell).map fun x => x.le v.toExtNum
  | .strv s => pyLeVal cell (.str s)

/-- Elementwise `series >= val`. -/
def frameCellGe (cell : PyVal) : CoVal → Option Bool
  | .flt v => (toExtNum cell).map fun x => ExtNum.le v.toExtNum x
  | .strv s => pyLeVal (.str s) cell

/-- Elementwise `val < series`, for the `>` operator. -/
def frameCellGt (cell : PyVal) : CoVal → Option Bool
  | .flt v => (toExtNum cell).map fun x => ExtNum.lt v.toExtNum x
  | .strv s => pyLtVal (.str s) cell

/-- Keep the rows whose mask bit is true, provided no bit raised. -/
def maskFilter (rows : List (List (String × PyVal))) (mask : List (String × PyVal) → Option Bool) :
    Option (List (List (String × PyVal))) :=
  (rows.mapM fun r => (mask r).map fun b => (r, b)).map fun l =>
    (l.filter Prod.snd).map Prod.fst

/-- One iteration of the `PandasDataSource.filter` loop: skip unknown fields
(`continue`), coerce the value to float on numeric columns except for
`"like"`, dispatch on the operator (an unknown operator leaves the frame
unchanged), and swallow `ValueError`/`TypeError` so a failing item is a
no-op.  `"like"` matches `str(value)` case-insensitively inside
`str(cell)`; the regex engine behind `Series.str.contains` is not modelled,
so patterns are taken literally (metacharacter-free patterns behave so). -/
def frameApplyItem (f : Frame) (it : FilterItem) : Frame :=
  match f.headers.lookup it.field with
  | Option.none => f
  | Option.some dt =>
    let co : CoVal :=
      if it.operator ≠ "like" ∧ dt.isNumeric then
        match pyFloatOfString it.value with
        | Option.some x => .flt x
        | Option.none => .strv it.value
      else .strv it.value
    let keep : Option (List (List (String × PyVal))) :=
      if it.operator = "=" then
        maskFilter f.rows fun r => Option.some (frameCellEq (cellOf r it.field) co)
      else if it.operator = "!=" then
        maskFilter f.rows fun r => Option.some (!frameCellEq (cellOf r it.field) co)
      else if it.operator = "<" then
        maskFilter f.rows fun r => frameCellLt (cellOf r it.field) co
      else if it.operator = "<=" then
        maskFilter f.rows fun r => frameCellLe (cellOf r it.field) co
      else if it.operator = ">" then
        maskFilter f.rows fun r => frameCellGt (cellOf r it.field) co
      else if it.operator = ">=" then
        maskFilter f.rows fun r => frameCellGe (cellOf r it.field) co
      else if it.operator = "like" then
        maskFilter f.rows fun r => Option.some (strContainsCI (pyStr (cellOf r it.field)) it.value)
      else Option.none
    match keep with
    | Option.some rows => { f with rows := rows }
    | Option.none => f

/-- The instance state of a `PandasDataSource`: `_df` and `_filtered_df`. -/
structure PState where
  df : Option Frame
  filtered : Option Frame

/-- `PandasDataSource.__init__`. -/
def initPandasState : PState := ⟨Option.none, Option.none⟩

/-- An observable side effect of the cached-frame loader. -/
inductive LoadEffect where
  | cacheGet
  | cacheSet
  | fetchData
  deriving DecidableEq, Repr

/-- `PandasDataSource._ensure_loaded`: memoised in-instance; otherwise try
the cache when the mixin is present (`useCache`), with `cached` the
already-restored frame of a structurally valid hit, and fall back to the
fetch step, best-effort populating the cache afterwards.  Returns the new
state and the effects performed. -/
def ensureLoaded (useCache : Bool) (cached : Option Frame) (fetched : Frame) (st : PState) :
    PState × List LoadEffect :=
  if st.df.isSome then (st, [])
  else
    match (if useCache then cached else Option.none) with
    | Option.some f => (⟨Option.some f, Option.some f⟩, [LoadEffect.cacheGet])
    | Option.none =>
      (⟨Option.some fetched, Option.some fetched⟩,
        (if useCache then [LoadEffect.cacheGet] else []) ++ [LoadEffect.fetchData] ++
          (if useCache then [LoadEffect.cacheSet] else []))

/-- `PandasDataSource.filter`: load, reset `_filtered_df` to `_df`, return
early on a missing or empty frame, then fold the items. -/
def frameFilterOp (useCache : Bool) (cached : Option Frame) (fetched : Frame) (st : PState)
    (items : List FilterItem) : PState × List LoadEffect :=
  let (st1, effs) := ensureLoaded useCache cached fetched st
  let st2 : PState := ⟨st1.df, st1.df⟩
  match st2.filtered with
  | Option.none => (st2, effs)
  | Option.some f =>
    if f.isEmptyDf then (st2, effs)
    else (⟨st2.df, Option.some (items.foldl frameApplyItem f)⟩, effs)

/-- `PandasDataSource.sort`: no-op for a falsy `sort_by`, a missing or empty
frame, or an unknown column; otherwise `sort_values` on the current view.
The pandas default sort is `quicksort`; tie order is implementation-defined
and no theorem below relies on the tie order this model produces.
`Option.none` models the `TypeError` numpy raises on unorderable cells. -/
def frameSortOp (st : PState) (sortBy : Option String) (sortOrder : Option String) :
    Option PState :=
  match sortBy with
  | Option.none => Option.some st
  | Option.some sb =>
    if sb = "" then Option.some st
    else
      match st.filtered with
      | Option.none => Option.some st
      | Option.some f =>
        if f.isEmptyDf then Option.some st
        else if (f.headers.lookup sb).isNone then Option.some st
        else
          let ascending := pyLower (sortOrder.getD "") ≠ "desc"
          let lt : List (String × PyVal) → List (String × PyVal) → Option Bool := fun r1 r2 =>
            if ascending then pyLtVal (cellOf r1 sb) (cellOf r2 sb)
            else pyLtVal (cellOf r2 sb) (cellOf r1 sb)
          (stableSortM lt f.rows).map fun rows =>
            ⟨st.df, Option.some { f with rows := rows }⟩

/-- `PandasDataSource.paginate`: no guard on `page`/`size` — whenever a
nonempty frame is loaded it takes `iloc[(page-1)*size : (page-1)*size+size]`
unconditionally. -/
def framePaginateOp (st : PState) (page size : Int) : PState :=
  match st.filtered with
  | Option.none => st
  | Option.some f =>
    if f.isEmptyDf then st
    else
      ⟨st.df,
        Option.some
          { f with
            rows := pySliceList f.rows ((page - 1) * size) ((page - 1) * size + size) }⟩

/-- `df.astype(object).where(df.notnull(), None)`: `NaN` cells become
`None`. -/
def denull : PyVal → PyVal
  | .float .nan => .none
  | v => v

/-- `PandasDataSource.all`: empty for a missing or empty frame, otherwise
each record serialized via `serialize_value` after null replacement. -/
def frameAll (st : PState) : List (List (String × PyVal)) :=
  match st.filtered with
  | Option.none => []
  | Option.some f =>
    if f.isEmptyDf then []
    else f.rows.map fun r => r.map fun kv => (kv.1, serializeValue (denull kv.2))

/-- `PandasDataSource.all` with its (empty) effect trace. -/
def frameAllOp (st : PState) : List (List (String × PyVal)) × List LoadEffect :=
  (frameAll st, [])

/-- `PandasDataSource.count`: the length of `_filtered_df`, `0` when no
frame is loaded. -/
def frameCount (st : PState) : Nat :=
  match st.filtered with
  | Option.none => 0
  | Option.some f => f.rows.length

/-- `PandasDataSource.count` with its (empty) effect trace. -/
def frameCountOp (st : PState) : Nat × List LoadEffect :=
  (frameCount st, [])

/-- `PandasDataSource.get_columns`: loads the frame, then lists the column
names. -/
def frameGetColumnsOp (useCache : Bool) (cached : Option Frame) (fetched : Frame) (st : PState) :
    List String × PState × List LoadEffect :=
  let (st1, effs) := ensureLoaded useCache cached fetched st
  (match st1.df with
   | Option.some f => f.headers.map Prod.fst
   | Option.none => [], st1, effs)

/-- A frame with no columns and no rows (`pd.DataFrame()`). -/
def emptyFrame : Frame := ⟨[], []⟩

/-- `CsvUrlDataSource.fetch_dataframe`: the outcome of `pd.read_csv` at the
resolved source path, with any exception converted into an empty frame. -/
def csvFetchDataframe (readResult : Except String Frame) : Frame :=
  match readResult with
  | .ok f => f
  | .error _ => emptyFrame

/-! ## `DatabaseDataSource`

The SQLAlchemy statement is modelled symbolically — selected columns with
their declared types, the underlying relation, accumulated `WHERE` clauses,
and the `ORDER BY`/`LIMIT`/`OFFSET` state — together with an evaluator
giving the statement's result set. -/

/-- The declared SQL type of a column, as `build_filter` discriminates it. -/
inductive ColTy where
  | boolean
  | integer
  | datetimeTy
  | strTy
  deriving DecidableEq

/-- A SQL cell value. -/
inductive DBVal where
  | b (v : Bool)
  | i (v : Int)
  | dt (v : PyDateTime)
  | s (v : String)
  | null
  deriving DecidableEq

/-- A comparison operator in a `WHERE` clause. -/
inductive CmpOp where
  | eq
  | ne
  | lt
  | le
  | gt
  | ge
  deriving DecidableEq

/-- A `WHERE` expression produced by `build_filter`: a comparison against a
cast literal, or a case-insensitive `LIKE` against a pattern. -/
inductive DBExpr where
  | cmp (col : String) (op : CmpOp) (val : DBVal)
  | ilikeExpr (col : String) (pat : String)

/-- A `Select` statement: columns, base relation, and the clauses the data
source accumulates. -/
structure SelectStmt where
  cols : List (String × ColTy)
  table : List (List (String × DBVal))
  wheres : List DBExpr
  order : Option (String × Bool)
  limit : Option Int
  offset : Option Int

/-- A plain select over a relation. -/
def selectFrom (cols : List (String × ColTy)) (table : List (List (String × DBVal))) :
    SelectStmt :=
  ⟨cols, table, [], Option.none, Option.none, Option.none⟩

/-- `DatabaseDataSource` instance state: `base_stmt` and `stmt`. -/
structure DBState where
  base : SelectStmt
  cur : SelectStmt

/-- `DatabaseDataSource.__init__`. -/
def mkDbSource (stmt : SelectStmt) : DBState := ⟨stmt, stmt⟩

/-- Number of days in a month of the proleptic Gregorian calendar. -/
def daysInMonth (y m : Nat) : Nat :=
  if m = 2 then
    if y % 4 = 0 ∧ (y % 100 ≠ 0 ∨ y % 400 = 0) then 29 else 28
  else if m = 4 ∨ m = 6 ∨ m = 9 ∨ m = 11 then 30
  else 31

/-- Read exactly `n` digits as a number, returning the rest. -/
def takeDigits (n : Nat) (cs : List Char) : Option (Nat × List Char) :=
  let (ds, rest) := cs.splitAt n
  if ds.length = n ∧ ds.all Char.isDigit then
    Option.some (ds.foldl (fun acc c => acc * 10 + (c.toNat - 48)) 0, rest)
  else Option.none

/-- The `HH:MM[:SS[.ffffff]]` part of an ISO datetime. -/
def readIsoTime (cs : List Char) : Option (Nat × Nat × Nat × Nat) := do
  let (hh, cs) ← takeDigits 2 cs
  match cs with
  | ':' :: cs => do
    let (mi, cs) ← takeDigits 2 cs
    let (ss, us) ←
      match cs with
      | [] => Option.some (0, 0)
      | ':' :: cs => do
        let (ss, cs) ← takeDigits 2 cs
        match cs with
        | [] => Option.some (ss, 0)
        | '.' :: frac =>
          if frac ≠ [] ∧ frac.length ≤ 6 ∧ frac.all Char.isDigit then
            Option.some (ss,
              (frac.foldl (fun acc c => acc * 10 + (c.toNat - 48)) 0) *
                10 ^ (6 - frac.length))
          else Option.none
        | _ => Option.none
      | _ => Option.none
    if hh < 24 ∧ mi < 60 ∧ ss < 60 then Option.some (hh, mi, ss, us) else Option.none
  | _ => Option.none

/-- `datetime.fromisoformat` for plain `YYYY-MM-DD[ sep HH:MM[:SS[.ffffff]]]`
strings (timezone offsets and the other 3.11 extensions are outside the
embedded inputs); `Option.none` models `ValueError`. -/
def fromIsoformat (s : String) : Option PyDateTime := do
  let cs := s.toList
  let (y, cs) ← takeDigits 4 cs
  match cs with
  | '-' :: cs => do
    let (mo, cs) ← takeDigits 2 cs
    match cs with
    | '-' :: cs => do
      let (d, cs) ← takeDigits 2 cs
      if 1 ≤ mo ∧ mo ≤ 12 ∧ 1 ≤ d ∧ d ≤ daysInMonth y mo then
        match cs with
        | [] => Option.some ⟨y, mo, d, 0, 0, 0, 0⟩
        | sep :: cs =>
          if sep = 'T' ∨ sep = ' ' then do
            let (hh, mi, ss, us) ← readIsoTime cs
            Option.some ⟨y, mo, d, hh, mi, ss, us⟩
          else Option.none
      else Option.none
    | _ => Option.none
  | _ => Option.none

/-- The type-directed cast of `DatabaseDataSource.build_filter`: booleans from
the truthy-token set, integers via `int()`, datetimes via `fromisoformat`,
anything else kept as a string; `Option.none` models the caught
`ValueError`. -/
def castValue (ty : ColTy) (value : String) : Option DBVal :=
  match ty with
  | .boolean =>
    Option.some (.b (pyLower value = "true" ∨ pyLower value = "1" ∨
      pyLower value = "yes" ∨ pyLower value = "y"))
  | .integer => (pyIntOfString value).map .i
  | .datetimeTy => (fromIsoformat value).map .dt
  | .strTy => Option.some (.s value)

/-- `DatabaseDataSource.build_filter`: cast the literal, then look the
operator up; `"like"` compiles to `ILIKE "%value%"` only when the cast value
is still a string, and an unknown operator or failed cast yields no
expression. -/
def buildFilter (ty : ColTy) (col : String) (op : String) (value : String) : Option DBExpr :=
  match castValue ty value with
  | Option.none => Option.none
  | Option.some cv =>
    if op = "=" then Option.some (.cmp col .eq cv)
    else if op = "<" then Option.some (.cmp col .lt cv)
    else if op = "<=" then Option.some (.cmp col .le cv)
    else if op = ">" then Option.some (.cmp col .gt cv)
    else if op = ">=" then Option.some (.cmp col .ge cv)
    else if op = "!=" then Option.some (.cmp col .ne cv)
    else if op = "like" then
      match cv with
      | .s sv => Option.some (.ilikeExpr col ("%" ++ sv ++ "%"))
      | _ => Option.none
    else Option.none

/-- `DatabaseDataSource.filter`: start from `base_stmt`; resolving an unknown
field raises `AttributeError` (`Option.none`); an item whose `build_filter`
yields no expression is a no-op, otherwise its expression joins the `WHERE`
conjunction. -/
def dbFilter (st : DBState) (items : List FilterItem) : Option DBState :=
  (items.foldlM (fun (cur : SelectStmt) (it : FilterItem) =>
      match cur.cols.lookup it.field with
      | Option.none => Option.none
      | Option.some ty =>
        match buildFilter ty it.field it.operator it.value with
        | Option.some e => Option.some { cur with wheres := cur.wheres ++ [e] }
        | Option.none => Option.some cur)
    st.base).map fun cur => { st with cur := cur }

/-- `DatabaseDataSource.sort`: no-op for a falsy or unknown `sort_by`;
otherwise clear any previous ordering and order by the single column,
descending exactly when `sort_order` lowercases to `"desc"`. -/
def dbSort (st : DBState) (sortBy : Option String) (sortOrder : Option String) : DBState :=
  match sortBy with
  | Option.none => st
  | Option.some sb =>
    if sb = "" then st
    else if (st.cur.cols.lookup sb).isNone then st
    else
      let desc := pyLower (sortOrder.getD "") = "desc"
      { st with cur := { st.cur with order := Option.some (sb, desc) } }

/-- `DatabaseDataSource.paginate`: sets `LIMIT size OFFSET (page-1)*size`
unless `page` or `size` is zero. -/
def dbPaginate (st : DBState) (page size : Int) : DBState :=
  if page ≠ 0 ∧ size ≠ 0 then
    { st with
      cur := { st.cur with limit := Option.some size, offset := Option.some ((page - 1) * size) } }
  else st

/-- The cell of a relation row (`NULL` when the column is absent). -/
def dbCell (row : List (String × DBVal)) (col : String) : DBVal :=
  match row.lookup col with
  | Option.some v => v
  | Option.none => .null

/-- Same-type SQL ordering on cell values (`Option.none` for `NULL` or
mismatched types, whose comparisons are never true). -/
def dbValCompare : DBVal → DBVal → Option Ordering
  | .b x, .b y => Option.some (compare (cond x 1 0) (cond y (1 : Nat) 0))
  | .i x, .i y => Option.some (compare x y)
  | .dt x, .dt y => Option.some (compare x.key y.key)
  | .s x, .s y => Option.some (compare x y)
  | _, _ => Option.none

/-- Evaluate a comparison clause on a row; any comparison with `NULL` is not
true. -/
def evalCmp (cell : DBVal) (op : CmpOp) (v : DBVal) : Bool :=
  match dbValCompare cell v with
  | Option.none => false
  | Option.some o =>
    match op with
    | .eq => o = Ordering.eq
    | .ne => o ≠ Ordering.eq
    | .lt => o = Ordering.lt
    | .le => o ≠ Ordering.gt
    | .gt => o = Ordering.gt
    | .ge => o ≠ Ordering.lt

/-- Fuel-indexed SQL `LIKE` matching: `%` matches any run, `_` any one
character.  Every step shrinks the pattern or the string, so the wrapper's
fuel never runs out. -/
def likeMatchF : Nat → List Char → List Char → Bool
  | 0, _, _ => false
  | _ + 1, [], [] => true
  | _ + 1, [], _ :: _ => false
  | fuel + 1, '%' :: ps, s =>
    likeMatchF fuel ps s ||
      (match s with
       | [] => false
       | _ :: s2 => likeMatchF fuel ('%' :: ps) s2)
  | fuel + 1, '_' :: ps, _ :: s => likeMatchF fuel ps s
  | _ + 1, '_' :: _, [] => false
  | fuel + 1, p :: ps, c :: s => p = c && likeMatchF fuel ps s
  | _ + 1, _ :: _, [] => false

/-- SQL `LIKE` pattern matching. -/
def likeMatch (p s : List Char) : Bool :=
  likeMatchF (p.length + s.length + 1) p s

/-- Evaluate one `WHERE` expression on a row; `ILIKE` is case-insensitive
`LIKE`, and is never true on `NULL`. -/
def evalExpr (row : List (String × DBVal)) : DBExpr → Bool
  | .cmp col op v => evalCmp (dbCell row col) op v
  | .ilikeExpr col pat =>
    match dbCell row col with
    | .s sv => likeMatch (pyLower pat).toList (pyLower sv).toList
    | _ => false

/-- Total ordering used to run `ORDER BY` (`NULL` placement and tie order
are engine-defined; the model places `NULL` first and keeps ties in base
order, and no theorem relies on either choice). -/
def dbValLtB (a c : DBVal) : Bool :=
  match dbValCompare a c with
  | Option.some o => o = Ordering.lt
  | Option.none => a = .null ∧ c ≠ .null

/-- Stable insertion for a total strict order. -/
def stableInsertB (lt : α → α → Bool) (x : α) : List α → List α
  | [] => [x]
  | y :: ys => if lt y x then y :: stableInsertB lt x ys else x :: y :: ys

/-- A stable sort for a total strict order. -/
def stableSortB (lt : α → α → Bool) : List α → List α
  | [] => []
  | x :: xs => stableInsertB lt x (stableSortB lt xs)

/-- Run a statement: apply the `WHERE` conjunction, then `ORDER BY`, then
`OFFSET` and `LIMIT` (negative values, which a database would reject, are
clamped and never produced by the embedded callers with `page ≥ 1`). -/
def dbRun (stmt : SelectStmt) : List (List (String × DBVal)) :=
  let rows := stmt.table.filter fun r => stmt.wheres.all (evalExpr r)
  let rows :=
    match stmt.order with
    | Option.none => rows
    | Option.some (col, desc) =>
      stableSortB
        (fun r1 r2 =>
          if desc then dbValLtB (dbCell r2 col) (dbCell r1 col)
          else dbValLtB (dbCell r1 col) (dbCell r2 col))
        rows
  let rows :=
    match stmt.offset with
    | Option.some o => rows.drop o.toNat
    | Option.none => rows
  match stmt.limit with
  | Option.some l => rows.take l.toNat
  | Option.none => rows

/-- `DatabaseDataSource.serialize_row`: `dict(row)` — a fresh mapping with
the raw values. -/
def dbSerializeRow (row : List (String × DBVal)) : List (String × DBVal) := row

/-- `DatabaseDataSource.all`: run the current statement. -/
def dbAll (st : DBState) : List (List (String × DBVal)) :=
  (dbRun st.cur).map dbSerializeRow

/-- `DatabaseDataSource.count`: `SELECT count(*)` over the current statement
as a subquery — limit and offset included. -/
def dbCount (st : DBState) : Nat :=
  (dbRun st.cur).length

/-- `DatabaseDataSource.get_columns`. -/
def dbGetColumns (st : DBState) : List String :=
  st.cur.cols.map Prod.fst

/-! ## SHA-256 (`hashlib.sha256(...).hexdigest()`)

Words are naturals reduced modulo `2 ^ 32`. -/

/-- Truncate to a 32-bit word. -/
def w32 (n : Nat) : Nat := n % 4294967296

/-- Right-rotate a 32-bit word. -/
def rotr (n k : Nat) : Nat := w32 ((n >>> k) ||| (n <<< (32 - k)))

/-- Bitwise complement of a 32-bit word. -/
def not32 (n : Nat) : Nat := n ^^^ 4294967295

/-- The SHA-256 round constants. -/
def shaK : List Nat :=
  [1116352408, 1899447441, 3049323471, 3921009573, 961987163, 1508970993, 2453635748,
   2870763221, 3624381080, 310598401, 607225278, 1426881987, 1925078388, 2162078206,
   2614888103, 3248222580, 3835390401, 4022224774, 264347078, 604807628, 770255983,
   1249150122, 1555081692, 1996064986, 2554220882, 2821834349, 2952996808, 3210313671,
   3336571891, 3584528711, 113926993, 338241895, 666307205, 773529912, 1294757372,
   1396182291, 1695183700, 1986661051, 2177026350, 2456956037, 2730485921, 2820302411,
   3259730800, 3345764771, 3516065817, 3600352804, 4094571909, 275423344, 430227734,
   506948616, 659060556, 883997877, 958139571, 1322822218, 1537002063, 1747873779,
   1955562222, 2024104815, 2227730452, 2361852424, 2428436474, 2756734187, 3204031479,
   3329325298]

/-- The SHA-256 initial hash state. -/
def shaH0 : List Nat :=
  [1779033703, 3144134277, 1013904242, 2773480762, 1359893119, 2600822924, 528734635,
   1541459225]

/-- Pad a byte message to a multiple of 64 bytes, appending `0x80`, zeros,
and the 64-bit big-endian bit length. -/
def shaPad (msg : List Nat) : List Nat :=
  let len := msg.length
  let zeros := (64 + 56 - ((len + 1) % 64)) % 64
  let bitLen := 8 * len
  msg ++ [0x80] ++ List.replicate zeros 0 ++
    ((List.range 8).map fun i => bitLen >>> (8 * (7 - i)) % 256)

/-- Group bytes into big-endian 32-bit words. -/
def bytesToWords : List Nat → List Nat
  | b0 :: b1 :: b2 :: b3 :: rest => (((b0 * 256 + b1) * 256 + b2) * 256 + b3) :: bytesToWords rest
  | _ => []

/-- Fuel-indexed 16-word blocking; the fuel, set to the word count by the
wrapper, never runs out. -/
def toBlocksF : Nat → List Nat → List (List Nat)
  | 0, _ => []
  | _ + 1, [] => []
  | fuel + 1, w :: ws => ((w :: ws).take 16) :: toBlocksF fuel ((w :: ws).drop 16)

/-- Split a word list into 16-word blocks. -/
def toBlocks (ws : List Nat) : List (List Nat) :=
  toBlocksF ws.length ws

/-- Extend a 16-word block to the 64-word message schedule. -/
def shaSchedule (block : List Nat) : List Nat :=
  (List.range 48).foldl
    (fun w _ =>
      let t := w.length
      let s0 :=
        let x := w.getD (t - 15) 0
        rotr x 7 ^^^ rotr x 18 ^^^ (x >>> 3)
      let s1 :=
        let x := w.getD (t - 2) 0
        rotr x 17 ^^^ rotr x 19 ^^^ (x >>> 10)
      w ++ [w32 (s1 + w.getD (t - 7) 0 + s0 + w.getD (t - 16) 0)])
    block

/-- One SHA-256 compression round. -/
def shaRound (st : List Nat) (kw : Nat × Nat) : List Nat :=
  match st with
  | [a, b, c, d, e, f, g, h] =>
    let s1 := rotr e 6 ^^^ rotr e 11 ^^^ rotr e 25
    let ch := (e &&& f) ^^^ (not32 e &&& g)
    let t1 := h + s1 + ch + kw.1 + kw.2
    let s0 := rotr a 2 ^^^ rotr a 13 ^^^ rotr a 22
    let maj := (a &&& b) ^^^ (a &&& c) ^^^ (b &&& c)
    let t2 := s0 + maj
    [w32 (t1 + t2), a, b, c, w32 (d + t1), e, f, g]
  | st => st

/-- Compress one block into the hash state. -/
def shaCompress (hs : List Nat) (block : List Nat) : List Nat :=
  let ws := shaSchedule block
  let fin := (shaK.zip ws).foldl shaRound hs
  (hs.zip fin).map fun p => w32 (p.1 + p.2)

/-- SHA-256 of a byte message, as the eight-word state. -/
def sha256Words (msg : List Nat) : List Nat :=
  (toBlocks (bytesToWords (shaPad msg))).foldl shaCompress shaH0

/-- Eight-hex-digit rendering of a 32-bit word. -/
def wordHex (w : Nat) : String :=
  String.mk ((List.range 8).map fun i => hexDigit (w >>> (4 * (7 - i)) % 16))

/-- UTF-8 encode a string (kernel-computable). -/
def utf8Encode (s : String) : List Nat :=
  s.toList.flatMap fun c =>
    let n := c.toNat
    if n < 0x80 then [n]
    else if n < 0x800 then [0xC0 + n / 64, 0x80 + n % 64]
    else if n < 0x10000 then [0xE0 + n / 4096, 0x80 + n / 64 % 64, 0x80 + n % 64]
    else [0xF0 + n / 262144, 0x80 + n / 4096 % 64, 0x80 + n / 64 % 64, 0x80 + n % 64]

/-- `hashlib.sha256(key.encode("utf-8")).hexdigest()`. -/
def sha256Hex (s : String) : String :=
  String.join ((sha256Words (utf8Encode s)).map wordHex)

/-! ## Cache backends (`ckanext/tables/cache.py`) -/

/-- `RedisCacheBackend._PREFIX`. -/
def redisNamespace : String := "ckanext:tables:"

/-- `RedisCacheBackend._full_key`. -/
def redisFullKey (key : String) : String := redisNamespace ++ key

/-- `PickleCacheBackend._cache_path`: `os.path.join(cache_dir,
sha256-hex + ".pkl")` (the joined name is never absolute, so the join is a
plain separator). -/
def pickleCachePath (cacheDir key : String) : String :=
  cacheDir ++ "/" ++ sha256Hex key ++ ".pkl"

/-- An exception class relevant to the pickle backend's handlers. -/
inductive PyExc where
  | osError
  | pickleError
  | eofError
  | attrError
  | typeError
  deriving DecidableEq, Repr

/-- A cache file on disk: its modification time and the outcome of reading
and unpickling it (`pickle.load` may fail with `UnpicklingError`, but a
corrupt payload may equally raise `EOFError`, `AttributeError` and others —
the Python docs call all of them out). -/
structure CacheFile where
  mtime : Int
  content : Except PyExc PyVal

/-- The cache directory as a map from paths to files. -/
abbrev CacheFs := List (String × CacheFile)

/-- `PickleCacheBackend._get_ttl`: unpickle and take `data.get("ttl", 0)`
for dicts, `0` otherwise; `OSError`, `PickleError` and `AttributeError`
are converted to `0`, anything else propagates. -/
def pickleGetTtl (cf : CacheFile) : Except PyExc PyVal :=
  match cf.content with
  | .ok v =>
    .ok
      (match v with
       | .dict kvs =>
         match kvs.lookup "ttl" with
         | Option.some w => w
         | Option.none => .int 0
       | _ => .int 0)
  | .error e =>
    if e = .osError ∨ e = .pickleError ∨ e = .attrError then .ok (.int 0) else .error e

/-- `PickleCacheBackend.get`: absent file gives `None`; then, under a handler
for `OSError` and `PickleError` only, compare `now - mtime` against the
stored ttl (expired gives `None`), unpickle, and unwrap `data["value"]` when
the payload is a dict carrying it.  Exceptions outside the handled two
propagate. -/
def pickleGet (fs : CacheFs) (now : Int) (cacheDir key : String) : Except PyExc PyVal :=
  let path := pickleCachePath cacheDir key
  match fs.lookup path with
  | Option.none => .ok .none
  | Option.some cf =>
    let body : Except PyExc PyVal := do
      let ttlv ← pickleGetTtl cf
      let expired ←
        match toExtNum ttlv with
        | Option.some x => Except.ok (ExtNum.le x (.fin ((now - cf.mtime : Int) : Rat)))
        | Option.none => Except.error PyExc.typeError
      if expired then Except.ok .none
      else do
        let v ← cf.content
        Except.ok
          (match v with
           | .dict kvs =>
             match kvs.lookup "value" with
             | Option.some w => w
             | Option.none => v
           | _ => v)
    match body with
    | .error e => if e = .osError ∨ e = .pickleError then .ok .none else .error e
    | .ok v => .ok v

/-- `PickleCacheBackend.set`: write `{ttl, value}` to the hashed path with
the current time as its modification time; a failed write (`OSError`,
`writeOk = false`) is logged and leaves the store unchanged. -/
def pickleSet (fs : CacheFs) (writeOk : Bool) (now : Int) (cacheDir key : String)
    (value : PyVal) (ttl : Int) : CacheFs :=
  if writeOk then
    (pickleCachePath cacheDir key,
      CacheFile.mk now (.ok (.dict [("ttl", .int ttl), ("value", value)]))) ::
      fs.filter fun kv => kv.1 ≠ pickleCachePath cacheDir key
  else fs

/-- `PickleCacheBackend.delete`: remove the file, a missing file being a
no-op. -/
def pickleDelete (fs : CacheFs) (cacheDir key : String) : CacheFs :=
  fs.filter fun kv => kv.1 ≠ pickleCachePath cacheDir key

/-! ## Concrete fixtures used by the theorems -/

/-- The spec's numeric-column scenario as a frame with an integer `age`
column. -/
def ageIntFrame : Frame :=
  ⟨[("id", PDtype.int64), ("age", PDtype.int64)],
   [[("id", PyVal.int 1), ("age", PyVal.int 157)],
    [("id", PyVal.int 2), ("age", PyVal.int 15)]]⟩

/-- The same scenario with a float `age` column, whose cells render as
`"157.0"` and `"15.0"`. -/
def ageFloatFrame : Frame :=
  ⟨[("id", PDtype.int64), ("age", PDtype.float64)],
   [[("id", PyVal.int 1), ("age", PyVal.float (PFloat.finite 157 0))],
    [("id", PyVal.int 2), ("age", PyVal.float (PFloat.finite 15 0))]]⟩

/-- A pandas source state with the given frame loaded and unfiltered. -/
def loadedState (f : Frame) : PState := ⟨Option.some f, Option.some f⟩

/-- The numeric-column scenario as a relational source with an
`Integer`-typed `age` column. -/
def dbAgeSource : DBState :=
  mkDbSource
    (selectFrom [("id", ColTy.integer), ("age", ColTy.integer)]
      [[("id", DBVal.i 1), ("age", DBVal.i 157)],
       [("id", DBVal.i 2), ("age", DBVal.i 15)]])

/-- A relational source with a string-typed column. -/
def dbNameSource : DBState :=
  mkDbSource
    (selectFrom [("name", ColTy.strTy)]
      [[("name", DBVal.s "Alice")], [("name", DBVal.s "Bob")]])

/-- The numeric-column scenario as a list source. -/
def listAgeData : List LRow :=
  [[("id", PyVal.int 1), ("age", PyVal.int 157)],
   [("id", PyVal.int 2), ("age", PyVal.int 15)]]

/-- A two-row list source, filtered with no items. -/
def twoRowListSource : ListState :=
  listFilter (mkListSource [[("a", PyVal.int 1)], [("a", PyVal.int 2)]]) []

/-- A well-formed cache file: a five-minute ttl around write time `100`. -/
def freshCacheFile : CacheFile :=
  ⟨100, .ok (.dict [("ttl", .int 300), ("value", .str "v")])⟩

/-- A cache directory holding one well-formed entry for key `"k"`. -/
def goodCacheFs : CacheFs := [(pickleCachePath "/c" "k", freshCacheFile)]

/-- A cache directory whose entry for `"k"` is a truncated pickle: reading
it raises `EOFError`. -/
def truncatedCacheFs : CacheFs :=
  [(pickleCachePath "/c" "k", ⟨100, .error PyExc.eofError⟩)]

/-- A cache directory whose entry for `"k"` fails with `UnpicklingError`. -/
def unpicklableCacheFs : CacheFs :=
  [(pickleCachePath "/c" "k", ⟨100, .error PyExc.pickleError⟩)]

/-! ## Helper lemmas -/

/-- Python slicing with non-negative bounds is drop-then-take. -/
theorem pySliceList_nonneg (xs : List α) (a b : Int) (ha : 0 ≤ a) (hb : 0 ≤ b) :
    pySliceList xs a b = (xs.drop a.toNat).take (b.toNat - a.toNat) := by
  unfold pySliceList
  have hna : (if a < 0 then max 0 ((xs.length : Int) + a) else min (xs.length : Int) a).toNat
      = min xs.length a.toNat := by
    rw [if_neg (by omega)]
    rcases le_total a (xs.length : Int) with h | h
    · rw [min_eq_right h]
      omega
    · rw [min_eq_left h]
      omega
  have hnb : (if b < 0 then max 0 ((xs.length : Int) + b) else min (xs.length : Int) b).toNat
      = min xs.length b.toNat := by
    rw [if_neg (by omega)]
    rcases le_total b (xs.length : Int) with h | h
    · rw [min_eq_right h]
      omega
    · rw [min_eq_left h]
      omega
  simp only [hna, hnb]
  rcases Nat.le_total (min xs.length a.toNat) (min xs.length b.toNat) with hle | hle
  · have key := List.take_drop (min xs.length a.toNat)
      (min xs.length b.toNat - min xs.length a.toNat) xs
    rw [Nat.add_sub_cancel' hle] at key
    rw [← key]
    rcases Nat.le_total a.toNat xs.length with h2 | h2
    · rw [Nat.min_eq_right h2]
      rcases Nat.le_total b.toNat xs.length with h3 | h3
      · rw [Nat.min_eq_right h3]
      · rw [Nat.min_eq_left h3]
        rw [List.take_of_length_le (by rw [List.length_drop]),
          List.take_of_length_le (by rw [List.length_drop]; omega)]
    · rw [Nat.min_eq_left h2]
      rw [List.drop_eq_nil_iff.mpr (Nat.le_refl _), List.take_nil,
        List.drop_eq_nil_iff.mpr (by omega), List.take_nil]
  · rw [List.drop_eq_nil_iff.mpr (by rw [List.length_take]; omega)]
    rcases Nat.lt_or_ge a.toNat xs.length with h2 | h2
    · have hba : b.toNat ≤ a.toNat := by omega
      rw [Nat.sub_eq_zero_of_le hba, List.take_zero]
    · rw [List.drop_eq_nil_iff.mpr (by omega), List.take_nil]

/-- A successful stable insertion grows the list by one. -/
theorem stableInsert_length (lt : α → α → Option Bool) (x : α) :
    ∀ (ys zs : List α), stableInsert lt x ys = Option.some zs → zs.length = ys.length + 1 := by
  intro ys
  induction ys with
  | nil => intro zs h; simp [stableInsert] at h; simp [← h]
  | cons y ys ih =>
    intro zs h
    simp only [stableInsert] at h
    match hlt : lt y x with
    | Option.some true =>
      rw [hlt] at h
      match hrec : stableInsert lt x ys with
      | Option.some ws =>
        rw [hrec] at h
        simp at h
        simp [← h, ih ws hrec]
      | Option.none => rw [hrec] at h; simp at h
    | Option.some false =>
      rw [hlt] at h
      simp at h
      simp [← h]
    | Option.none => rw [hlt] at h; simp at h

/-- A successful stable sort is a permutation in particular in length. -/
theorem stableSortM_length (lt : α → α → Option Bool) :
    ∀ (xs ys : List α), stableSortM lt xs = Option.some ys → ys.length = xs.length := by
  intro xs
  induction xs with
  | nil => intro ys h; simp [stableSortM] at h; simp [← h]
  | cons x xs ih =>
    intro ys h
    simp only [stableSortM] at h
    match hrec : stableSortM lt xs with
    | Option.some ws =>
      rw [hrec] at h
      simp at h
      have := stableInsert_length lt x ws ys h
      simp [this, ih ws hrec]
    | Option.none => rw [hrec] at h; simp at h

mutual

/-- The value serializer only produces JSON-safe values. -/
theorem serializeValue_jsonSafe (v : PyVal) : jsonSafe (serializeValue v) = true := by
  match v with
  | .none => simp [serializeValue, jsonSafe]
  | .bool b => simp [serializeValue, jsonSafe]
  | .int i => simp [serializeValue, jsonSafe]
  | .float f => simp [serializeValue, jsonSafe]
  | .str s => simp [serializeValue, jsonSafe]
  | .bytes bs => simp [serializeValue, jsonSafe]
  | .datetime dt => simp [serializeValue, jsonSafe]
  | .decimal d => simp [serializeValue, jsonSafe]
  | .other s => simp [serializeValue, jsonSafe]
  | .npscalar w =>
    rw [serializeValue]
    exact serializeValue_jsonSafe w
  | .list xs =>
    rw [serializeValue, jsonSafe]
    exact serializeList_jsonSafe xs
  | .dict kvs =>
    rw [serializeValue, jsonSafe]
    exact serializeDict_jsonSafe kvs
termination_by sizeOf v

/-- Listwise counterpart of `serializeValue_jsonSafe`. -/
theorem serializeList_jsonSafe (xs : List PyVal) : jsonSafeList (serializeList xs) = true := by
  match xs with
  | [] => simp [serializeList, jsonSafeList]
  | x :: rest =>
    rw [serializeList, jsonSafeList]
    rw [serializeValue_jsonSafe x, serializeList_jsonSafe rest]
    rfl
termination_by sizeOf xs

/-- Mapwise counterpart of `serializeValue_jsonSafe`. -/
theorem serializeDict_jsonSafe (kvs : List (String × PyVal)) :
    jsonSafeDict (serializeDict kvs) = true := by
  match kvs with
  | [] => simp [serializeDict, jsonSafeDict]
  | (k, v) :: rest =>
    rw [serializeDict, jsonSafeDict]
    rw [serializeValue_jsonSafe v, serializeDict_jsonSafe rest]
    rfl
termination_by sizeOf kvs

end

/-! ## The claims -/

/-- C1 — counterexample.  The claim says an unknown field is skipped as a
no-op for that item; on the list source, the unknown field `"missing"`
instead resolves every row to the empty string, so an equality filter
against `"y"` empties the result set, which had one row. -/
theorem c1_counterexample :
    listAll (listFilter (mkListSource [[("name", PyVal.str "x")]]) [⟨"missing", "=", "y"⟩]) = []
      ∧ [[("name", PyVal.str "x")]] ≠ ([] : List LRow) := by
  exact ⟨rfl, by simp⟩

/-- C1 — amended: the frame variant skips an item whose field is not a
column, leaving the remaining items applied, and the list variant skips an
item with an unknown operator; the list variant evaluates unknown fields
against the empty string instead of skipping them, and the relational
variant raises on them. -/
theorem c1_amended (f : Frame) (it : FilterItem) (rest : List FilterItem)
    (stL : ListState) (items2 : List FilterItem) (it2 : FilterItem)
    (hfield : f.headers.lookup it.field = Option.none)
    (hop : listOpFunc it2.operator = Option.none) :
    frameApplyItem f it = f ∧
      (it :: rest).foldl frameApplyItem f = rest.foldl frameApplyItem f ∧
      listFilter stL (it2 :: items2) = listFilter stL items2 := by
  have h1 : frameApplyItem f it = f := by
    unfold frameApplyItem
    rw [hfield]
  refine ⟨h1, ?_, ?_⟩
  · rw [List.foldl_cons, h1]
  · unfold listFilter
    rw [List.foldl_cons]
    unfold listBuildFilter
    rw [hop]
    rfl

/-- C1 — witness for the amended theorem. -/
theorem c1_amended_witness :
    frameApplyItem ageIntFrame ⟨"missing", "=", "1"⟩ = ageIntFrame ∧
      ([⟨"missing", "=", "1"⟩] : List FilterItem).foldl frameApplyItem ageIntFrame =
        ([] : List FilterItem).foldl frameApplyItem ageIntFrame ∧
      listFilter (mkListSource listAgeData) [⟨"age", "??", "1"⟩] =
        listFilter (mkListSource listAgeData) [] :=
  c1_amended ageIntFrame ⟨"missing", "=", "1"⟩ [] (mkListSource listAgeData) []
    ⟨"age", "??", "1"⟩ rfl rfl

/-- C2 — counterexample.  `count()` is not independent of `paginate`: on a
two-row list source, `paginate(1, 1)` restricts the view, and a subsequent
`count()` returns `1`, not `2`. -/
theorem c2_counterexample :
    listCount (listPaginate twoRowListSource 1 1) = 1 ∧ listCount twoRowListSource = 2 :=
  ⟨rfl, rfl⟩

/-- C2 — amended: `count()` returns the size of the current view.  A
successful `sort` preserves it (list and frame variants), but `paginate`
restricts the view, so a count taken after `paginate(page, size)` is the
clamped window length `min size (count - (page-1)*size)`; callers obtain the
filter-only total by counting before paginating. -/
theorem c2_amended (stL stL' : ListState) (sb so : Option String)
    (stP stP' : PState) (sbP soP : Option String) (p s : Int)
    (hsort : listSort stL sb so = Option.some stL')
    (hsortP : frameSortOp stP sbP soP = Option.some stP')
    (hp : 1 ≤ p) (hs : 1 ≤ s) :
    listCount stL' = listCount stL ∧
      frameCount stP' = frameCount stP ∧
      listCount (listPaginate stL p s) =
        min s.toNat (listCount stL - ((p - 1) * s).toNat) := by
  refine ⟨?_, ?_, ?_⟩
  · unfold listSort at hsort
    match sb with
    | Option.none =>
      simp at hsort
      rw [← hsort]
    | Option.some sbv =>
      by_cases hsb : sbv = ""
      · simp [hsb] at hsort
        rw [← hsort]
      · simp [hsb] at hsort
        match hs2 : stableSortM
            (fun r1 r2 =>
              if pyLower (so.getD "") = "desc" then pyLtVal (rowGetNone r2 sbv) (rowGetNone r1 sbv)
              else pyLtVal (rowGetNone r1 sbv) (rowGetNone r2 sbv)) stL.filtered with
        | Option.some l =>
          rw [hs2] at hsort
          simp at hsort
          have := stableSortM_length _ _ _ hs2
          rw [← hsort]
          simpa [listCount] using this
        | Option.none =>
          rw [hs2] at hsort
          simp at hsort
  · unfold frameSortOp at hsortP
    match sbP with
    | Option.none =>
      simp at hsortP
      rw [← hsortP]
    | Option.some sbv =>
      by_cases hsb : sbv = ""
      · simp [hsb] at hsortP
        rw [← hsortP]
      · simp [hsb] at hsortP
        match hf : stP.filtered with
        | Option.none =>
          rw [hf] at hsortP
          simp at hsortP
          rw [← hsortP]
        | Option.some f =>
          rw [hf] at hsortP
          by_cases hemp : f.isEmptyDf
          · simp [hemp] at hsortP
            rw [← hsortP]
          · simp [hemp] at hsortP
            by_cases hcol : (f.headers.lookup sbv).isNone
            · simp [hcol] at hsortP
              rw [← hsortP]
            · simp [hcol] at hsortP
              obtain ⟨a, ha, hst⟩ := hsortP
              have := stableSortM_length _ _ _ ha
              rw [← hst]
              simp [frameCount, hf, this]
  · have hstart : 0 ≤ (p - 1) * s := mul_nonneg (by omega) (by omega)
    unfold listPaginate
    rw [if_pos (by omega)]
    unfold listCount
    rw [pySliceList_nonneg _ _ _ (by omega) (by omega)]
    rw [List.length_take, List.length_drop]
    omega

/-- C2 — witness for the amended theorem. -/
theorem c2_amended_witness :
    listCount (ListState.mk [[("a", PyVal.int 1)]] [[("a", PyVal.int 1)]]) =
        listCount (mkListSource [[("a", PyVal.int 1)]]) ∧
      frameCount (loadedState ageIntFrame) = frameCount (loadedState ageIntFrame) ∧
      listCount (listPaginate (mkListSource [[("a", PyVal.int 1)]]) 2 1) =
        min (1 : Int).toNat
          (listCount (mkListSource [[("a", PyVal.int 1)]]) - ((2 - 1) * 1 : Int).toNat) := by
  exact c2_amended (mkListSource [[("a", PyVal.int 1)]])
    (ListState.mk [[("a", PyVal.int 1)]] [[("a", PyVal.int 1)]]) (Option.some "a")
    (Option.some "desc") (loadedState ageIntFrame) (loadedState ageIntFrame)
    Option.none Option.none 2 1 rfl rfl (by omega) (by omega)

/-- C3 — counterexample.  The frame variant has no falsy guard: with a
two-row frame loaded, `paginate(0, 10)` is not a no-op — it empties the
view (`iloc[-10:0]`), so a subsequent count is `0` instead of `2`. -/
theorem c3_counterexample :
    frameCount (framePaginateOp (loadedState ageIntFrame) 0 10) = 0 ∧
      frameCount (loadedState ageIntFrame) = 2 :=
  ⟨rfl, rfl⟩

/-- C3 — amended: the relational and list variants treat a zero `page` or
`size` as a no-op; the frame variant applies the window unconditionally
whenever a nonempty frame is loaded.  For `page ≥ 1` and `size ≥ 1` every
in-memory variant restricts the view to the window
`[(page-1)*size, (page-1)*size + size)`, and a window past the end of the
data yields an empty result rather than an error. -/
theorem c3_amended (stL : ListState) (stD : DBState) (stP : PState) (f : Frame)
    (p s q r : Int) (hp : 1 ≤ p) (hs : 1 ≤ s)
    (hf : stP.filtered = Option.some f) (hne : f.isEmptyDf = false) :
    listPaginate stL 0 r = stL ∧ listPaginate stL q 0 = stL ∧
      dbPaginate stD 0 r = stD ∧ dbPaginate stD q 0 = stD ∧
      (listPaginate stL p s).filtered =
        (stL.filtered.drop ((p - 1) * s).toNat).take s.toNat ∧
      (framePaginateOp stP p s).filtered =
        Option.some { f with rows := (f.rows.drop ((p - 1) * s).toNat).take s.toNat } ∧
      (stL.filtered.length ≤ ((p - 1) * s).toNat →
        (listPaginate stL p s).filtered = []) := by
  have hstart : 0 ≤ (p - 1) * s := mul_nonneg (by omega) (by omega)
  have hslice : ∀ (xs : List LRow),
      pySliceList xs ((p - 1) * s) ((p - 1) * s + s) =
        (xs.drop ((p - 1) * s).toNat).take s.toNat := by
    intro xs
    rw [pySliceList_nonneg _ _ _ (by omega) (by omega)]
    congr 1
    omega
  refine ⟨by simp [listPaginate], by simp [listPaginate], by simp [dbPaginate],
    by simp [dbPaginate], ?_, ?_, ?_⟩
  · unfold listPaginate
    rw [if_pos (by omega)]
    exact hslice stL.filtered
  · obtain ⟨df, filt⟩ := stP
    have hf2 : filt = Option.some f := hf
    subst hf2
    simp only [framePaginateOp, hne, Bool.false_eq_true, if_false]
    rw [hslice f.rows]
  · intro hlen
    unfold listPaginate
    rw [if_pos (by omega), hslice stL.filtered]
    rw [List.drop_eq_nil_iff.mpr hlen, List.take_nil]

/-- C3 — witness for the amended theorem. -/
theorem c3_amended_witness :
    listPaginate twoRowListSource 0 7 = twoRowListSource ∧
      listPaginate twoRowListSource 3 0 = twoRowListSource ∧
      dbPaginate dbAgeSource 0 7 = dbAgeSource ∧ dbPaginate dbAgeSource 3 0 = dbAgeSource ∧
      (listPaginate twoRowListSource 2 1).filtered =
        (twoRowListSource.filtered.drop ((2 - 1) * 1 : Int).toNat).take (1 : Int).toNat ∧
      (framePaginateOp (loadedState ageIntFrame) 2 1).filtered =
        Option.some
          { ageIntFrame with
            rows := (ageIntFrame.rows.drop ((2 - 1) * 1 : Int).toNat).take (1 : Int).toNat } ∧
      (twoRowListSource.filtered.length ≤ ((2 - 1) * 1 : Int).toNat →
        (listPaginate twoRowListSource 2 1).filtered = []) :=
  c3_amended twoRowListSource dbAgeSource (loadedState ageIntFrame) ageIntFrame
    2 1 3 7 (by omega) (by omega) rfl rfl

/-- C4 — counterexample.  On the relational variant, `"like"` against an
`Integer`-typed column casts the value to `int`, so the operator resolves to
no expression and the item is dropped: the scenario returns both rows, not
exactly the `157` row. -/
theorem c4_counterexample :
    (dbFilter dbAgeSource [⟨"age", "like", "157"⟩]).map dbAll =
        Option.some [[("id", DBVal.i 1), ("age", DBVal.i 157)],
          [("id", DBVal.i 2), ("age", DBVal.i 15)]] ∧
      ¬ (dbFilter dbAgeSource [⟨"age", "like", "157"⟩]).map dbAll =
        Option.some [[("id", DBVal.i 1), ("age", DBVal.i 157)]] := by
  constructor
  · rfl
  · decide

/-- C4 — amended: for the frame and list variants, `"like"` keeps exactly the
rows whose column's string form contains the original filter string
case-insensitively — the numeric-column scenario returns exactly the `157`
row, both for an integer-rendered and a `157.0`-rendered float column — and
on the relational variant only string-typed columns are filtered, via a
case-insensitive SQL `LIKE` on `%value%`, while `"like"` on a column whose
cast value is not a string is a no-op for that item. -/
theorem c4_amended :
    (frameFilterOp false Option.none ageIntFrame (loadedState ageIntFrame)
        [⟨"age", "like", "157"⟩]).1.filtered =
      Option.some ⟨ageIntFrame.headers, [[("id", PyVal.int 1), ("age", PyVal.int 157)]]⟩ ∧
    (frameFilterOp false Option.none ageFloatFrame (loadedState ageFloatFrame)
        [⟨"age", "like", "157"⟩]).1.filtered =
      Option.some ⟨ageFloatFrame.headers,
        [[("id", PyVal.int 1), ("age", PyVal.float (PFloat.finite 157 0))]]⟩ ∧
    listAll (listFilter (mkListSource listAgeData) [⟨"age", "like", "157"⟩]) =
      [[("id", PyVal.int 1), ("age", PyVal.int 157)]] ∧
    (dbFilter dbNameSource [⟨"name", "like", "LI"⟩]).map dbAll =
      Option.some [[("name", DBVal.s "Alice")]] ∧
    buildFilter ColTy.integer "age" "like" "157" = Option.none :=
  ⟨rfl, rfl, rfl, rfl, rfl⟩

/-- C6 — on a fetch failure the frame source sees an empty frame: after
`filter()`, `all()` is `[]` and `count()` is `0`, with no exception crossing
the source boundary. -/
theorem c6_fetch_failure (err : String) (items : List FilterItem) :
    frameAll (frameFilterOp true Option.none (csvFetchDataframe (Except.error err))
        initPandasState items).1 = [] ∧
      frameCount (frameFilterOp true Option.none (csvFetchDataframe (Except.error err))
        initPandasState items).1 = 0 :=
  ⟨rfl, rfl⟩

/-- C7 — counterexample.  A corrupt cache file that raises `EOFError` when
unpickled (a truncated pickle) makes `get` raise: neither the `_get_ttl`
handler (`OSError`, `PickleError`, `AttributeError`) nor the `get` handler
(`OSError`, `PickleError`) catches it. -/
theorem c7_counterexample :
    pickleGet truncatedCacheFs 200 "/c" "k" = Except.error PyExc.eofError := rfl

/-- C7 — amended: `get` returns the absent marker (`None`) when the key was
never set and when the stored entry has expired (`now - write_time ≥ ttl`),
and treats corrupt data failing with `OSError` or `PickleError` as absent
without raising; a fresh well-formed entry yields its value.  Corrupt
payloads raising other exception types propagate (see the
counterexample). -/
theorem c7_amended (fs : CacheFs) (now mtime t : Int) (cd k : String) (v : PyVal) (e : PyExc) :
    (fs.lookup (pickleCachePath cd k) = Option.none →
      pickleGet fs now cd k = Except.ok PyVal.none) ∧
    (fs.lookup (pickleCachePath cd k) =
        Option.some ⟨mtime, Except.ok (PyVal.dict [("ttl", PyVal.int t), ("value", v)])⟩ →
      (t ≤ now - mtime → pickleGet fs now cd k = Except.ok PyVal.none) ∧
      (now - mtime < t → pickleGet fs now cd k = Except.ok v)) ∧
    (fs.lookup (pickleCachePath cd k) = Option.some ⟨mtime, Except.error e⟩ →
      (e = PyExc.osError ∨ e = PyExc.pickleError) →
      pickleGet fs now cd k = Except.ok PyVal.none) := by
  refine ⟨?_, ?_, ?_⟩
  · intro h
    unfold pickleGet
    simp only [h]
  · intro h
    constructor
    · intro hexp
      have hc : ¬((now - mtime : Rat) < ((t : Int) : Rat)) := by
        rw [not_lt]
        exact_mod_cast hexp
      unfold pickleGet
      simp only [h]
      simp [pickleGetTtl, List.lookup, toExtNum, ExtNum.le, ExtNum.lt, hc, Bind.bind, Except.bind]
    · intro hexp
      have hc : ((now - mtime : Rat) < ((t : Int) : Rat)) := by exact_mod_cast hexp
      unfold pickleGet
      simp only [h]
      simp [pickleGetTtl, List.lookup, toExtNum, ExtNum.le, ExtNum.lt, hc, Bind.bind, Except.bind]
  · intro h he
    rcases he with rfl | rfl <;>
      · unfold pickleGet
        simp only [h]
        simp only [pickleGetTtl]
        simp [toExtNum, ExtNum.le, ExtNum.lt, Bind.bind, Except.bind]
        by_cases hmt : mtime ≤ now <;> simp [hmt]

/-- C7 — witness for the amended theorem. -/
theorem c7_amended_witness :
    pickleGet ([] : CacheFs) 0 "/c" "k" = Except.ok PyVal.none ∧
      pickleGet goodCacheFs 400 "/c" "k" = Except.ok PyVal.none ∧
      pickleGet goodCacheFs 200 "/c" "k" = Except.ok (PyVal.str "v") ∧
      pickleGet unpicklableCacheFs 200 "/c" "k" = Except.ok PyVal.none := by
  refine ⟨(c7_amended [] 0 0 0 "/c" "k" PyVal.none PyExc.osError).1 rfl, ?_, ?_, ?_⟩
  · exact ((c7_amended goodCacheFs 400 100 300 "/c" "k" (PyVal.str "v") PyExc.osError).2.1
      rfl).1 (by omega)
  · exact ((c7_amended goodCacheFs 200 100 300 "/c" "k" (PyVal.str "v") PyExc.osError).2.1
      rfl).2 (by omega)
  · exact (c7_amended unpicklableCacheFs 200 100 0 "/c" "k" PyVal.none
      PyExc.pickleError).2.2 rfl (Or.inr rfl)

/-- C8 — counterexample.  The filesystem backend's file name is not the
digest of a namespaced key: for key `"k"` the stored path differs from the
path that hashing the namespaced key (`"ckanext:tables:k"`) would give. -/
theorem c8_counterexample :
    pickleCachePath "/c" "k" ≠ "/c/" ++ sha256Hex (redisFullKey "k") ++ ".pkl" := by
  decide

/-- C8 — amended: the network backend namespaces every logical key with the
fixed `"ckanext:tables:"` string; the filesystem backend applies no
namespace — it stores each entry at the hex SHA-256 digest of the raw
logical key plus a `.pkl` extension, and the file holds the serialized
`{ttl, value}` structure. -/
theorem c8_amended (key dir : String) (fs : CacheFs) (now ttl : Int) (v : PyVal) :
    redisFullKey key = "ckanext:tables:" ++ key ∧
      pickleCachePath dir key = dir ++ "/" ++ sha256Hex key ++ ".pkl" ∧
      (pickleSet fs true now dir key v ttl).lookup (pickleCachePath dir key) =
        Option.some ⟨now, Except.ok (PyVal.dict [("ttl", PyVal.int ttl), ("value", v)])⟩ := by
  refine ⟨rfl, rfl, ?_⟩
  simp [pickleSet, List.lookup]

/-- C9 — counterexample.  The list variant's `all()` returns its internal
filtered list unserialized: a row holding a raw `datetime` value comes back
as-is, and a `datetime` is not JSON-safe. -/
theorem c9_counterexample :
    listAll (listFilter (mkListSource [[("ts", PyVal.datetime ⟨2023, 1, 1, 12, 0, 0, 0⟩)]]) [])
        = [[("ts", PyVal.datetime ⟨2023, 1, 1, 12, 0, 0, 0⟩)]] ∧
      jsonSafe (PyVal.datetime ⟨2023, 1, 1, 12, 0, 0, 0⟩) = false := by
  exact ⟨rfl, by simp [jsonSafe]⟩

/-- C9 — amended: the frame variant's `all()` serializes every cell through
`serialize_value`, whose output is always JSON-safe (`None`, booleans,
numbers, strings, or lists/mappings of such — bytes decoded, timestamps
ISO-8601, decimals as floats); the relational variant returns a fresh
`dict(row)` per row without value serialization, and the list variant
returns its internal filtered list as-is. -/
theorem c9_amended :
    (∀ v : PyVal, jsonSafe (serializeValue v) = true) ∧
      (∀ st : PState,
        ((frameAll st).all fun r => r.all fun kv => jsonSafe kv.2) = true) := by
  refine ⟨serializeValue_jsonSafe, ?_⟩
  intro st
  obtain ⟨df, filt⟩ := st
  cases filt with
  | none => rfl
  | some f =>
    by_cases hemp : f.isEmptyDf
    · simp [frameAll, hemp]
    · simp only [frameAll, hemp, Bool.false_eq_true, if_false]
      rw [List.all_eq_true]
      intro r hr
      obtain ⟨r0, hr0, rfl⟩ := List.mem_map.mp hr
      rw [List.all_eq_true]
      intro kv hkv
      obtain ⟨kv0, hkv0, rfl⟩ := List.mem_map.mp hkv
      exact serializeValue_jsonSafe _

/-- C10 — before any `filter()` or `get_columns()` call, `all()` returns
`[]` and `count()` returns `0` with an empty effect trace (no cache lookup,
no fetch), while `filter()` and `get_columns()` always perform loading
effects on a fresh instance and leave a frame loaded. -/
theorem c10_lazy_reads :
    frameAllOp initPandasState = ([], []) ∧
      frameCountOp initPandasState = (0, []) ∧
      (∀ (uc : Bool) (cached : Option Frame) (fetched : Frame) (items : List FilterItem),
        (frameFilterOp uc cached fetched initPandasState items).2 ≠ [] ∧
        ((frameFilterOp uc cached fetched initPandasState items).1.df).isSome = true) ∧
      (∀ (uc : Bool) (cached : Option Frame) (fetched : Frame),
        (frameGetColumnsOp uc cached fetched initPandasState).2.2 ≠ [] ∧
        ((frameGetColumnsOp uc cached fetched initPandasState).2.1.df).isSome = true) := by
  refine ⟨rfl, rfl, ?_, ?_⟩
  · intro uc cached fetched items
    unfold frameFilterOp ensureLoaded initPandasState
    cases hc : (if uc then cached else Option.none) with
    | none =>
      cases uc <;>
        · simp [hc]
          split <;> simp
    | some f =>
      cases uc <;>
        · simp [hc]
          split <;> simp
  · intro uc cached fetched
    unfold frameGetColumnsOp ensureLoaded initPandasState
    cases hc : (if uc then cached else Option.none) with
    | none => cases uc <;> simp [hc]
    | some f => cases uc <;> simp [hc]

end CkanextTables
